import Mathlib

/-!
Verification development for the Intentus task-orchestration core.

The definitions below are a shallow embedding of the Python sources:
  * `intentus/core/executor/__init__.py`  (class `Executor`)
  * `intentus/core/planner/__init__.py`   (class `Planner`, extraction helpers)
  * `intentus/core/agent.py`              (class `IntentusAgent`, the run loop)
  * `intentus/core/initializer/__init__.py` (class `Initializer`, the registry build)
  * `intentus/core/engine/factory.py`     (`create_llm_engine`)
  * `intentus/core/config.py`             (`CoreConfig` and friends)
  * `intentus/tools/wikipedia_knowledge_searcher/tool.py` (`execute`)

The external text-generation oracle and the concrete tool processes are
environments: their responses are inputs to the embedded functions.  Python
string primitives (`str.strip`, `str.split("\n")`, `str.startswith`,
`str.replace`, `str.lower`) are re-implemented structurally on `List Char`
so that every definition evaluates by kernel reduction.
-/

/-- Python `str.strip()` restricted to ASCII whitespace: drop whitespace
characters from both ends of the string. -/
def pyStrip (s : String) : String :=
  ⟨((s.data.dropWhile Char.isWhitespace).reverse.dropWhile Char.isWhitespace).reverse⟩

/-- Python `str.startswith(pre)`. -/
def pyStartsWith (s pre : String) : Bool :=
  pre.data.isPrefixOf s.data

/-- Auxiliary for `pyReplace`: replace every occurrence of `pat` by `rep`,
with a fuel bound (the length of the scanned list) making the recursion
structural.  The `pat.isEmpty` guard only rules out the empty pattern, which
never occurs in the sources. -/
def pyReplaceAux (pat rep : List Char) : Nat → List Char → List Char
  | 0, l => l
  | _ + 1, [] => []
  | fuel + 1, c :: rest =>
    if pat.isPrefixOf (c :: rest) && !pat.isEmpty then
      rep ++ pyReplaceAux pat rep fuel (List.drop (pat.length - 1) rest)
    else
      c :: pyReplaceAux pat rep fuel rest

/-- Python `s.replace(pat, rep)`: every occurrence of `pat` replaced. -/
def pyReplace (s pat rep : String) : String :=
  ⟨pyReplaceAux pat.data rep.data s.data.length s.data⟩

/-- Auxiliary for `pySplitLines`. -/
def pySplitLinesAux : List Char → List Char → List String
  | [], acc => [⟨acc.reverse⟩]
  | c :: rest, acc =>
    if c = Char.ofNat 10 then ⟨acc.reverse⟩ :: pySplitLinesAux rest []
    else pySplitLinesAux rest (c :: acc)

/-- Python `s.split("\n")`: always returns one more part than there are
newline characters. -/
def pySplitLines (s : String) : List String :=
  pySplitLinesAux s.data []

/-- Python `str.lower()` (ASCII). -/
def pyToLower (s : String) : String :=
  ⟨s.data.map Char.toLower⟩

/-- Python `d.get(k, "")` on a string-valued dict, the dict represented as an
association list (Python dicts have unique keys). -/
def pyDictGet (fields : List (String × String)) (k : String) : String :=
  (fields.lookup k).getD ""

/-- Python `repr` of a string that contains no quotes, backslashes or control
characters (the only strings it is applied to in this development). -/
def pyStrRepr (s : String) : String :=
  "\x27" ++ s ++ "\x27"

/-- Auxiliary for `pyDictRepr`. -/
def pyDictReprAux : List (String × String) → String
  | [] => ""
  | [p] => pyStrRepr p.1 ++ ": " ++ pyStrRepr p.2
  | p :: q :: rest => pyStrRepr p.1 ++ ": " ++ pyStrRepr p.2 ++ ", " ++ pyDictReprAux (q :: rest)

/-- Python `str(d)` of a flat string-to-string dict. -/
def pyDictRepr (fields : List (String × String)) : String :=
  "\x7b" ++ pyDictReprAux fields ++ "\x7d"

/-- The payload a tool's `execute` returns.  Both tools in the repository
(`google_search/tool.py` and `wikipedia_knowledge_searcher/tool.py`) return a
dict with a `success` flag, an optional `error` string and an optional
`result`; the Executor treats the whole payload as opaque. -/
structure ToolPayload where
  success : Bool
  error : Option String
  result : Option (List String × String)
deriving Repr, DecidableEq

/-- The value a single oracle (LLM engine) call returns for command
generation, as the Executor's code discriminates it: either a structured dict
(`isinstance(response, dict)`) or raw text.  For raw text the code applies
`json.loads(str(response))`; the decode outcome of that stdlib call is part
of the environment input: `some fields` for a successful decode into a dict,
`none` for a `json.JSONDecodeError`. -/
inductive OracleValue where
  | dictVal (fields : List (String × String))
  | textVal (decoded : Option (List (String × String)))
deriving Repr, DecidableEq

/-- Embeds `Executor.generate_tool_command` (executor/__init__.py, lines
55-128), modulo the prompt text, which does not affect the returned value.
The argument is the oracle response, `Except.error e` standing for the engine
call itself raising an exception whose `str` is `e`.  Mirrors the source:
a dict response yields `response.get("command", "").strip()`, which must be
non-empty or `ValueError("Empty command generated")` is raised; a text
response is parsed with `json.loads`, a decode failure raising
`ValueError("Invalid response format")`, and an otherwise missing or blank
command again raising `ValueError("Empty command generated")`. -/
def generate_tool_command (resp : Except String OracleValue) : Except String String :=
  match resp with
  | .error e => .error e
  | .ok (.dictVal fields) =>
    let command := pyStrip (pyDictGet fields "command")
    if command = "" then .error "Empty command generated" else .ok command
  | .ok (.textVal none) => .error "Invalid response format"
  | .ok (.textVal (some fields)) =>
    let command := pyStrip (pyDictGet fields "command")
    if command = "" then .error "Empty command generated" else .ok command

/-- Embeds `Executor.execute_tool_command` (executor/__init__.py, lines
130-145).  The module import, class lookup, instantiation and
`tool_instance.execute(command)` are the tool environment, abstracted as
`toolRun`; any exception `e` raised there is re-raised as
`Exception("Error executing tool command: " + str(e))`. -/
def execute_tool_command (toolRun : String → String → Except String ToolPayload)
    (tool command : String) : Except String ToolPayload :=
  match toolRun tool command with
  | .error e => .error ("Error executing tool command: " ++ e)
  | .ok r => .ok r

/-- The dict `Executor.execute_step` returns.  The Python dicts carry the
keys actually set on each path: the failure dicts have no `command` key and
the success dict has no `error` key, hence the `Option` fields. -/
structure ExecResult where
  success : Bool
  command : Option String
  error : Option String
  result : Option ToolPayload
deriving Repr, DecidableEq

/-- Embeds `Executor.execute_step` (executor/__init__.py, lines 30-53):
reject a tool that is not in `available_tools` without consulting the oracle;
otherwise generate a command and dispatch it, folding any exception from
either step into `{"success": False, "error": str(e), "result": None}`. -/
def execute_step (available : List String) (tool : String)
    (cmdResp : Except String OracleValue)
    (toolRun : String → String → Except String ToolPayload) : ExecResult :=
  if tool ∈ available then
    match generate_tool_command cmdResp with
    | .error e => ⟨false, none, some e, none⟩
    | .ok command =>
      match execute_tool_command toolRun tool command with
      | .error e => ⟨false, none, some e, none⟩
      | .ok r => ⟨true, some command, none, some r⟩
  else
    ⟨false, none, some ("Tool \x27" ++ tool ++ "\x27 is not available"), none⟩

/-- Embeds `Wikipedia_Knowledge_Searcher_Tool.execute` (tool.py, lines
119-149).  `search_wikipedia` is the external Wikipedia interaction; it
returns a pair `(search_results, text)`, and the surrounding `try` folds any
exception `e` into a failure payload (the `.error` case).  An empty result
list yields a payload with `success = False` without raising. -/
def wikipedia_execute (searchOutcome : Except String (List String × String)) : ToolPayload :=
  match searchOutcome with
  | .error e => ⟨false, some ("Error executing Wikipedia search: " ++ e), none⟩
  | .ok (search_results, text) =>
    if search_results.isEmpty then ⟨false, some text, none⟩
    else ⟨true, none, some (search_results, text)⟩

/-- The value `Planner.generate_next_step` hands back to the agent, as
`Planner.extract_context_subgoal_and_tool` discriminates it: a structured
dict, or raw text together with the outcome of `json.loads(str(response))`
(`some fields` for a successful decode into a string dict, `none` when the
decode raises and the line-oriented fallback runs). -/
inductive PyResponse where
  | dictVal (fields : List (String × String))
  | textVal (s : String) (decoded : Option (List (String × String)))
deriving Repr, DecidableEq

/-- One line of the fallback scanner in
`Planner.extract_context_subgoal_and_tool` (planner/__init__.py, lines
164-177): the accumulator is `(context, subgoal, tool)`. -/
def stepScanLine (acc : String × String × String) (line : String) : String × String × String :=
  if pyStartsWith line "Context:" then
    (pyStrip (pyReplace line "Context:" ""), acc.2.1, acc.2.2)
  else if pyStartsWith line "Sub-Goal:" then
    (acc.1, pyStrip (pyReplace line "Sub-Goal:" ""), acc.2.2)
  else if pyStartsWith line "Tool:" then
    (acc.1, acc.2.1, pyStrip (pyReplace line "Tool:" ""))
  else if pyStartsWith line "Tool Name:" then
    (acc.1, acc.2.1, pyStrip (pyReplace line "Tool Name:" ""))
  else acc

/-- Embeds `Planner.extract_context_subgoal_and_tool` (planner/__init__.py,
lines 132-184): read the three fields from a dict (or JSON-decoded text)
response, defaulting each to `""`; when decoding fails, fall back to
line-prefix scanning of the stringified response. -/
def extract_context_subgoal_and_tool (resp : PyResponse) : String × String × String :=
  match resp with
  | .dictVal fields =>
    (pyDictGet fields "context", pyDictGet fields "sub_goal", pyDictGet fields "tool_name")
  | .textVal _ (some fields) =>
    (pyDictGet fields "context", pyDictGet fields "sub_goal", pyDictGet fields "tool_name")
  | .textVal s none => (pySplitLines s).foldl stepScanLine ("", "", "")

/-- One line of the scanner in `Planner.extract_conclusion`
(planner/__init__.py, lines 359-377): the accumulator is
`(analysis, conclusion)`. -/
def conclusionScanLine (acc : String × String) (line : String) : String × String :=
  if pyStartsWith line "Analysis:" then
    (pyStrip (pyReplace line "Analysis:" ""), acc.2)
  else if pyStartsWith line "Conclusion:" then
    (acc.1, pyStrip (pyReplace line "Conclusion:" ""))
  else acc

/-- Embeds `Planner.extract_conclusion` (planner/__init__.py, lines 359-377).
The argument is `str(response)` for the raw verification response: the code
immediately stringifies and splits it into lines, scanning only for the
literal prefixes `Analysis:` and `Conclusion:`; both components default to
the empty string. -/
def extract_conclusion (respStr : String) : String × String :=
  (pySplitLines respStr).foldl conclusionScanLine ("", "")

/-- One recorded step.  Modelled from the spec: the Memory class
(`intentus/core/memory.py`) is not among the provided sources; §4.2 of the
spec and the call sites fix its interface — `add_action(step_count,
tool_name, sub_goal, command, result)` appends one entry and `get_actions()`
returns the entries in insertion order, so Memory is an append-only list of
these records.  The field values are exactly the keyword arguments
`IntentusAgent.run` passes at agent.py lines 132-138 (note the agent passes
the extracted `context` as `command`). -/
structure MemEntry where
  step_count : Nat
  tool_name : String
  sub_goal : String
  command : String
  result : ExecResult
deriving Repr, DecidableEq

/-- The behaviour of the external collaborators (the generation oracle and
the tools) during one run, indexed by the loop counter `step_count` of the
iteration in which the call is made.  Oracle prompts are built from the run
state deterministically, so indexing the responses by the iteration loses no
generality. -/
structure Env where
  query_analysis : String
  base_response : String
  next_step : Nat → PyResponse
  cmd_resp : Nat → Except String OracleValue
  tool_run : Nat → String → String → Except String ToolPayload
  verify_str : Nat → String
  final_output : List MemEntry → String

/-- The tool name the iteration at loop counter `i` selects, as extracted by
the planner from the oracle's next-step response. -/
def extractedTool (env : Env) (i : Nat) : String :=
  (extract_context_subgoal_and_tool (env.next_step i)).2.2

/-- The Memory entry `IntentusAgent.run` records in the iteration at loop
counter `i` (agent.py lines 102-138): extract `(context, subgoal, tool)` from
the next-step response, call `Executor.execute_step`, and append
`add_action(step_count=i, tool_name=tool, sub_goal=subgoal, command=context,
result=result)`. -/
def stepEntry (available : List String) (env : Env) (i : Nat) : MemEntry :=
  let ext := extract_context_subgoal_and_tool (env.next_step i)
  { step_count := i
    tool_name := ext.2.2
    sub_goal := ext.2.1
    command := ext.1
    result := execute_step available ext.2.2 (env.cmd_resp i) (env.tool_run i) }

/-- The verification conclusion of the iteration at loop counter `i`
(agent.py line 151): second component of `extract_conclusion`. -/
def conclusionAt (env : Env) (i : Nat) : String :=
  (extract_conclusion (env.verify_str i)).2

/-- Loop outcome: final value of `step_count`, the memory contents, and
instrumentation counting how many times the loop called
`Planner.generate_next_step`, `Executor.execute_step` and
`Planner.verificate_context`. -/
structure LoopOut where
  step_count : Nat
  memory : List MemEntry
  next_calls : Nat
  exec_calls : Nat
  verify_calls : Nat
deriving Repr, DecidableEq

/-- Add the one `generate_next_step`, `execute_step` and
`verificate_context` call of the current iteration to the counters of the
remaining loop. -/
def addIterCalls (r : LoopOut) : LoopOut :=
  ⟨r.step_count, r.memory, r.next_calls + 1, r.exec_calls + 1, r.verify_calls + 1⟩

/-- Embeds the `while step_count < self.config.max_steps` loop of
`IntentusAgent.run` (agent.py lines 96-159).  `step_count` increases by
exactly 1 in every iteration that does not `break`, so the loop guard
`step_count < max_steps` is equivalent to `max_steps - step_count > 0`; the
recursion is on the structural parameter `fuel = max_steps - step_count`
(`runLoop` below starts it at `max_steps` with `step_count = 0`, and
`loopFrom_guard` proves the guard equivalence).  An iteration generates the
next step, extracts `(context, subgoal, tool)`, executes, appends to memory
unconditionally, verifies, breaks on the exact conclusion `"STOP"`, and
otherwise increments `step_count`. -/
def loopFrom (available : List String) (env : Env) : Nat → Nat → List MemEntry → LoopOut
  | 0, s, m => ⟨s, m, 0, 0, 0⟩
  | fuel + 1, s, m =>
    let m2 := m ++ [stepEntry available env s]
    if conclusionAt env s = "STOP" then
      ⟨s, m2, 1, 1, 1⟩
    else
      addIterCalls (loopFrom available env fuel (s + 1) m2)

/-- The loop of `IntentusAgent.run`, started at `step_count = 0` with empty
memory. -/
def runLoop (max_steps : Nat) (available : List String) (env : Env) : LoopOut :=
  loopFrom available env max_steps 0 []

/-- The agent's runtime configuration.  `max_steps`, `enabled_tools` and
`llm_engine` are the fields of `AgentConfig` (agent.py lines 22-31) that the
embedded code reads; `max_time` is the time budget of `PlannerConfig`
(config.py line 21) that the demos set — `AgentConfig` itself carries no
time budget and `IntentusAgent.run` reads no field but `max_steps`. -/
structure AgentConfig where
  max_steps : Nat
  max_time : Nat
  enabled_tools : List String
  llm_engine : String
deriving Repr, DecidableEq

/-- The result dict `IntentusAgent.run` returns (agent.py lines 172-179),
without the wall-clock field `execution_time` (real time is outside the
embedding).  `memory` is `self.memory.get_actions()`. -/
structure RunResult where
  query_analysis : String
  base_response : String
  final_output : String
  steps_taken : Nat
  memory : List MemEntry
deriving Repr, DecidableEq

/-- Instrumentation: how many times one call to `IntentusAgent.run` invoked
each collaborator. -/
structure CallCounts where
  next_calls : Nat
  exec_calls : Nat
  verify_calls : Nat
  finalize_calls : Nat
deriving Repr, DecidableEq

/-- Embeds `IntentusAgent.run` (agent.py lines 80-181): analyze the query,
generate the base response, run the loop, then call
`Planner.generate_final_output` exactly once on the accumulated memory and
return the result dict with `steps_taken = step_count + 1`. -/
def agentRun (cfg : AgentConfig) (available : List String) (env : Env) :
    RunResult × CallCounts :=
  let out := runLoop cfg.max_steps available env
  (⟨env.query_analysis, env.base_response, env.final_output out.memory,
      out.step_count + 1, out.memory⟩,
   ⟨out.next_calls, out.exec_calls, out.verify_calls, 1⟩)

/-- One candidate tool as the `Initializer`'s directory scan sees it: the
tool class name found in `tools/<dir>/tool.py`, the metadata
`get_metadata()` would return, and whether the import / instantiation /
metadata extraction in `load_tools_and_get_metadata` succeeds (each tool
module in the repository defines exactly one `BaseTool` subclass). -/
structure Candidate where
  name : String
  metadata : String
  load_ok : Bool
deriving Repr, DecidableEq

/-- The tool environment of one `Initializer` build: the candidates the
filesystem scan enumerates, and whether `tool_class()` succeeds for a given
class name inside `run_demo_commands`. -/
structure ToolsEnv where
  candidates : List Candidate
  inst_ok : String → Bool

/-- The mutable state of an `Initializer` instance that the tool setup
touches: `self.toolbox_metadata` and `self.available_tools`. -/
structure InitState where
  toolbox_metadata : List (String × String)
  available_tools : List String
deriving Repr, DecidableEq

/-- Embeds `Initializer.load_tools_and_get_metadata` (initializer/__init__.py,
lines 52-94): scan the candidates, skip (with a log line) every candidate
whose import, instantiation or metadata extraction raises, and return the
metadata dict of the successful ones.  The method only returns this dict; it
does not assign `self.toolbox_metadata`. -/
def load_tools_and_get_metadata (env : ToolsEnv) : List (String × String) :=
  (env.candidates.filter (·.load_ok)).map (fun c => (c.name, c.metadata))

/-- Embeds `Initializer.run_demo_commands` (initializer/__init__.py, lines
96-128): reset `self.available_tools`, iterate over the current
`self.toolbox_metadata`, keep every tool whose instantiation succeeds, and
re-key `self.toolbox_metadata` to the surviving tools. -/
def run_demo_commands (env : ToolsEnv) (st : InitState) : InitState :=
  let available := ((st.toolbox_metadata.filter (fun p => env.inst_ok p.1)).map Prod.fst)
  { available_tools := available
    toolbox_metadata :=
      available.filterMap (fun t => (st.toolbox_metadata.lookup t).map (fun m => (t, m))) }

/-- Embeds `Initializer._set_up_tools` (initializer/__init__.py, lines
130-150): seed `self.available_tools` with the lower-cased,
`_tool`-stripped enabled names, call `load_tools_and_get_metadata` — whose
returned metadata the source discards — then `run_demo_commands`, and
finally re-filter `self.toolbox_metadata` to the available set. -/
def set_up_tools (enabled : List String) (env : ToolsEnv) (st : InitState) : InitState :=
  let st1 : InitState :=
    { st with available_tools := enabled.map (fun t => pyReplace (pyToLower t) "_tool" "") }
  let _discarded := load_tools_and_get_metadata env
  let st2 := run_demo_commands env st1
  let md :=
    st2.available_tools.filterMap (fun t => (st2.toolbox_metadata.lookup t).map (fun m => (t, m)))
  { st2 with toolbox_metadata := md }

/-- Embeds the tool-setup part of `Initializer.__init__`
(initializer/__init__.py, lines 11-34): `self.toolbox_metadata = {}` and
`self.available_tools = []`, then `self._set_up_tools()`.  The subsequent
vLLM branch (only for engine names starting `vllm-`) touches no tool state.
The wildcard flag `self.load_all = (enabled_tools == ["all"])` is computed
but never read anywhere in the source. -/
def initializer_init (enabled : List String) (env : ToolsEnv) : InitState :=
  set_up_tools enabled env ⟨[], []⟩

/-- Python dataclass `__init__`: calling it with a keyword argument that is
not a declared field raises `TypeError`. -/
def pyDataclassInit (fieldNames : List String) (kwargs : List String) : Except String Unit :=
  match kwargs.find? (fun k => !(fieldNames.contains k)) with
  | some k => .error ("TypeError: unexpected keyword argument " ++ k)
  | none => .ok ()

/-- The declared fields of the dataclass `CoreConfig` (core/config.py, lines
46-55): `llm`, `planner`, `memory`, `executor`, `verbose`, `log_level`.
There is no field `llm_engine`. -/
def coreConfigFieldNames : List String :=
  ["llm", "planner", "memory", "executor", "verbose", "log_level"]

/-- Embeds `create_llm_engine` (engine/factory.py, lines 11-34) applied to a
string engine name, as every constructor in the repository applies it.  The
first statement executes `CoreConfig(llm_engine=config)`; `CoreConfig` has no
field `llm_engine`, so this raises `TypeError` before the engine-name
dispatch (`gpt-4.1-mini` / `vllm` / `ValueError` otherwise) is reached. -/
def create_llm_engine (name : String) : Except String Unit :=
  match pyDataclassInit coreConfigFieldNames ["llm_engine"] with
  | .error e => .error e
  | .ok _ =>
    if name = "gpt-4.1-mini" then .ok ()
    else if name = "vllm" then .ok ()
    else .error ("Unsupported LLM engine: " ++ name)

/-- The components an `IntentusAgent` holds after construction, as far as the
claims are concerned: the registry output wired into the Planner and the
Executor. -/
structure AgentComponents where
  toolbox_metadata : List (String × String)
  available_tools : List String
deriving Repr, DecidableEq

/-- Embeds `IntentusAgent.__init__` (agent.py, lines 37-78): first
`create_llm_engine(config.llm_engine)`, then the `Initializer`, then Planner,
Memory and Executor over the initializer's outputs.  No statement anywhere in
this path examines whether `available_tools` is empty. -/
def IntentusAgent_init (cfg : AgentConfig) (env : ToolsEnv) : Except String AgentComponents :=
  match create_llm_engine cfg.llm_engine with
  | .error e => .error e
  | .ok _ =>
    let st := initializer_init cfg.enabled_tools env
    .ok ⟨st.toolbox_metadata, st.available_tools⟩

/-- The entries the loop appends in `n` consecutive iterations starting at
loop counter `s`. -/
def entriesFrom (available : List String) (env : Env) : Nat → Nat → List MemEntry
  | _, 0 => []
  | s, n + 1 => stepEntry available env s :: entriesFrom available env (s + 1) n

theorem entriesFrom_length (available : List String) (env : Env) :
    ∀ n s, (entriesFrom available env s n).length = n := by
  intro n
  induction n with
  | zero => intro s; rfl
  | succ n ih => intro s; simp [entriesFrom, ih]

/-- Fidelity of the fuel formulation: started with `fuel = max_steps - s`,
one unfolding of `loopFrom` is exactly the source loop with its guard
`step_count < max_steps` tested before the iteration. -/
theorem loopFrom_guard (available : List String) (env : Env)
    (max_steps s : Nat) (m : List MemEntry) :
    loopFrom available env (max_steps - s) s m =
      if s < max_steps then
        (if conclusionAt env s = "STOP" then
          ⟨s, m ++ [stepEntry available env s], 1, 1, 1⟩
        else
          addIterCalls (loopFrom available env (max_steps - (s + 1)) (s + 1)
            (m ++ [stepEntry available env s])))
      else ⟨s, m, 0, 0, 0⟩ := by
  rcases lt_or_ge s max_steps with hlt | hge
  · have hfuel : max_steps - s = (max_steps - (s + 1)) + 1 := by omega
    rw [hfuel, if_pos hlt]
    rfl
  · have hfuel : max_steps - s = 0 := by omega
    rw [hfuel, if_neg (by omega)]
    rfl

theorem loopFrom_calls (available : List String) (env : Env) :
    ∀ fuel s m, (loopFrom available env fuel s m).exec_calls ≤ fuel ∧
      (loopFrom available env fuel s m).next_calls =
        (loopFrom available env fuel s m).exec_calls ∧
      (loopFrom available env fuel s m).verify_calls =
        (loopFrom available env fuel s m).exec_calls := by
  intro fuel
  induction fuel with
  | zero => intro s m; exact ⟨Nat.le_refl 0, rfl, rfl⟩
  | succ n ih =>
    intro s m
    simp only [loopFrom]
    by_cases h : conclusionAt env s = "STOP"
    · rw [if_pos h]; exact ⟨Nat.succ_le_succ (Nat.zero_le n), rfl, rfl⟩
    · rw [if_neg h]
      obtain ⟨h1, h2, h3⟩ := ih (s + 1) (m ++ [stepEntry available env s])
      exact ⟨by simpa [addIterCalls] using Nat.succ_le_succ h1,
        by simp [addIterCalls, h2], by simp [addIterCalls, h3]⟩

theorem loopFrom_memory_decomp (available : List String) (env : Env) :
    ∀ fuel s m, ∃ tail, (loopFrom available env fuel s m).memory = m ++ tail ∧
      tail.length = (loopFrom available env fuel s m).exec_calls := by
  intro fuel
  induction fuel with
  | zero => intro s m; exact ⟨[], by simp [loopFrom], by simp [loopFrom]⟩
  | succ n ih =>
    intro s m
    simp only [loopFrom]
    by_cases h : conclusionAt env s = "STOP"
    · rw [if_pos h]; exact ⟨[stepEntry available env s], rfl, rfl⟩
    · rw [if_neg h]
      obtain ⟨tail, hmem, hlen⟩ := ih (s + 1) (m ++ [stepEntry available env s])
      refine ⟨stepEntry available env s :: tail, ?_, ?_⟩
      · simp [addIterCalls, hmem]
      · simp [addIterCalls, hlen]

/-- If the verifier answers `CONTINUE` (or anything other than the exact
token `STOP`) at every loop counter from `s` up to `k`, and `STOP` at `k`,
with `k` within the remaining fuel, the loop exits at `k` after `k + 1 - s`
full iterations. -/
theorem loopFrom_stop (available : List String) (env : Env) (k : Nat) :
    ∀ fuel s m, s ≤ k → k < s + fuel →
      (∀ i, s ≤ i → i < k → conclusionAt env i ≠ "STOP") →
      conclusionAt env k = "STOP" →
      loopFrom available env fuel s m =
        ⟨k, m ++ entriesFrom available env s (k + 1 - s),
          k + 1 - s, k + 1 - s, k + 1 - s⟩ := by
  intro fuel
  induction fuel with
  | zero => intro s m h1 h2; omega
  | succ n ih =>
    intro s m hle hlt hcont hstop
    by_cases hs : s = k
    · subst hs
      simp only [loopFrom]
      rw [if_pos hstop, show s + 1 - s = 1 from by omega]
      simp [entriesFrom]
    · have hsk : s < k := lt_of_le_of_ne hle hs
      have hns : conclusionAt env s ≠ "STOP" := hcont s le_rfl hsk
      simp only [loopFrom]
      rw [if_neg hns,
        ih (s + 1) (m ++ [stepEntry available env s]) (by omega) (by omega)
          (fun i hi1 hi2 => hcont i (by omega) hi2) hstop]
      have h1 : k + 1 - (s + 1) = k - s := by omega
      have h2 : k + 1 - s = (k - s) + 1 := by omega
      have hmem : entriesFrom available env s ((k - s) + 1) =
          stepEntry available env s :: entriesFrom available env (s + 1) (k - s) := rfl
      rw [h1, h2, hmem]
      simp [addIterCalls, List.append_assoc]

/-- If the verifier never answers the exact token `STOP` during the
remaining fuel, the loop runs to the budget and exits by the guard. -/
theorem loopFrom_nostop (available : List String) (env : Env) :
    ∀ fuel s m, (∀ i, s ≤ i → i < s + fuel → conclusionAt env i ≠ "STOP") →
      loopFrom available env fuel s m =
        ⟨s + fuel, m ++ entriesFrom available env s fuel, fuel, fuel, fuel⟩ := by
  intro fuel
  induction fuel with
  | zero => intro s m _; simp [loopFrom, entriesFrom]
  | succ n ih =>
    intro s m h
    have hns : conclusionAt env s ≠ "STOP" := h s le_rfl (by omega)
    simp only [loopFrom]
    rw [if_neg hns, ih (s + 1) (m ++ [stepEntry available env s])
      (fun i hi1 hi2 => h i (by omega) (by omega))]
    have hmem : entriesFrom available env s (n + 1) =
        stepEntry available env s :: entriesFrom available env (s + 1) n := rfl
    have hs : (s + 1) + n = s + (n + 1) := by omega
    rw [hmem, hs]
    simp [addIterCalls, List.append_assoc]

theorem string_append_ne_empty (s t : String) (h : s ≠ "") : s ++ t ≠ "" := by
  intro hc
  apply h
  cases s with
  | mk sd =>
    cases t with
    | mk td =>
      have hdata : sd ++ td = [] := congrArg String.data hc
      have hnil : sd = [] := (List.append_eq_nil.mp hdata).1
      rw [hnil]

/-- The failure record `Executor.execute_step` returns for an unavailable
tool, without any oracle call or dispatch. -/
theorem execute_step_not_available (available : List String) (tool : String)
    (cmdResp : Except String OracleValue)
    (toolRun : String → String → Except String ToolPayload)
    (h : tool ∉ available) :
    execute_step available tool cmdResp toolRun =
      ⟨false, none, some ("Tool \x27" ++ tool ++ "\x27 is not available"), none⟩ := by
  unfold execute_step
  rw [if_neg h]

theorem execute_step_cmd_error (available : List String) (tool : String)
    (cmdResp : Except String OracleValue)
    (toolRun : String → String → Except String ToolPayload) (e : String)
    (h1 : tool ∈ available) (h2 : generate_tool_command cmdResp = .error e) :
    execute_step available tool cmdResp toolRun = ⟨false, none, some e, none⟩ := by
  unfold execute_step
  rw [if_pos h1, h2]

theorem execute_step_tool_error (available : List String) (tool : String)
    (cmdResp : Except String OracleValue)
    (toolRun : String → String → Except String ToolPayload) (c e : String)
    (h1 : tool ∈ available) (h2 : generate_tool_command cmdResp = .ok c)
    (h3 : toolRun tool c = .error e) :
    execute_step available tool cmdResp toolRun =
      ⟨false, none, some ("Error executing tool command: " ++ e), none⟩ := by
  simp [execute_step, execute_tool_command, h1, h2, h3]

theorem execute_step_ok (available : List String) (tool : String)
    (cmdResp : Except String OracleValue)
    (toolRun : String → String → Except String ToolPayload) (c : String)
    (payload : ToolPayload)
    (h1 : tool ∈ available) (h2 : generate_tool_command cmdResp = .ok c)
    (h3 : toolRun tool c = .ok payload) :
    execute_step available tool cmdResp toolRun = ⟨true, some c, none, some payload⟩ := by
  simp [execute_step, execute_tool_command, h1, h2, h3]

/-- Every error `generate_tool_command` can produce is a non-empty string,
provided the oracle transport itself only raises exceptions that stringify
to something non-empty. -/
theorem generate_tool_command_error_ne_empty (resp : Except String OracleValue)
    (htr : ∀ e, resp = .error e → e ≠ "") :
    ∀ e, generate_tool_command resp = .error e → e ≠ "" := by
  intro e h
  cases resp with
  | error e0 =>
    have he : e0 = e := by simpa [generate_tool_command] using h
    exact he ▸ htr e0 rfl
  | ok v =>
    cases v with
    | dictVal fields =>
      by_cases hc : pyStrip (pyDictGet fields "command") = ""
      · simp [generate_tool_command, hc] at h
        subst h
        decide
      · simp [generate_tool_command, hc] at h
    | textVal o =>
      cases o with
      | none =>
        simp [generate_tool_command] at h
        subst h
        decide
      | some fields =>
        by_cases hc : pyStrip (pyDictGet fields "command") = ""
        · simp [generate_tool_command, hc] at h
          subst h
          decide
        · simp [generate_tool_command, hc] at h

/-- If no line of the stringified verification response starts with
`Conclusion:`, the scan of `Planner.extract_conclusion` leaves the
conclusion accumulator untouched. -/
theorem foldl_conclusionScanLine_snd (lines : List String) :
    ∀ acc : String × String,
      (∀ l ∈ lines, pyStartsWith l "Conclusion:" = false) →
      (lines.foldl conclusionScanLine acc).2 = acc.2 := by
  induction lines with
  | nil => intro acc _; rfl
  | cons l ls ih =>
    intro acc h
    have hl : pyStartsWith l "Conclusion:" = false := h l (by simp)
    have hrest : ∀ x ∈ ls, pyStartsWith x "Conclusion:" = false :=
      fun x hx => h x (by simp [hx])
    simp only [List.foldl_cons]
    rw [ih _ hrest]
    cases hA : pyStartsWith l "Analysis:" <;> simp [conclusionScanLine, hl, hA]

/-- The one tool name `main.py` enables. -/
def toolW : String := "Wikipedia_Knowledge_Searcher_Tool"

/-- A run environment whose planner always selects `toolW`, whose oracle
always returns the command `Paris`, whose tool always succeeds, and whose
verifier answers `CONTINUE` at every iteration except loop counter 1, where
it answers `STOP`. -/
def envStop1 : Env :=
  { query_analysis := "qa"
    base_response := "base"
    next_step := fun _ => .dictVal [("context", "ctx"), ("sub_goal", "goal"), ("tool_name", toolW)]
    cmd_resp := fun _ => .ok (.dictVal [("analysis", "a"), ("command", "Paris")])
    tool_run := fun _ _ _ => .ok ⟨true, none, some (["Paris"], "capital")⟩
    verify_str := fun i => if i = 1 then "Conclusion: STOP" else "Conclusion: CONTINUE"
    final_output := fun _ => "final" }

/-- Like `envStop1` but the verifier always answers `CONTINUE`. -/
def envContinue : Env :=
  { envStop1 with verify_str := fun _ => "Conclusion: CONTINUE" }

/-- A configuration with a step budget of 3. -/
def cfgW : AgentConfig := ⟨3, 300, [toolW], "gpt-4.1-mini"⟩

/-- A configuration with a step budget of 0. -/
def cfgZ : AgentConfig := ⟨0, 300, [toolW], "gpt-4.1-mini"⟩

/-- C4: for every `maxSteps = N` and every behaviour of the oracle and the
tools, one call to `IntentusAgent.run` performs at most `N` calls to
`Executor.execute_step`. -/
theorem run_execute_calls_le_max_steps (cfg : AgentConfig) (available : List String)
    (env : Env) : (agentRun cfg available env).2.exec_calls ≤ cfg.max_steps := by
  have h := loopFrom_calls available env cfg.max_steps 0 []
  simpa [agentRun, runLoop] using h.1

/-- C10: `steps_taken` in the run result is the final loop counter plus one.
When the verifier first answers `STOP` at loop counter `k < maxSteps`,
`steps_taken = k + 1`, equal to the number of recorded Memory entries; when
no `STOP` appears within the budget, `steps_taken = maxSteps + 1`, one more
than the `maxSteps` recorded entries; and with `maxSteps = 0` the loop runs
zero iterations yet `steps_taken = 1`. -/
theorem run_steps_taken_accounting (cfg : AgentConfig) (available : List String)
    (env : Env) :
    (∀ k, k < cfg.max_steps →
      (∀ i, i < k → conclusionAt env i ≠ "STOP") →
      conclusionAt env k = "STOP" →
      (agentRun cfg available env).1.steps_taken = k + 1 ∧
        (agentRun cfg available env).1.memory.length = k + 1) ∧
    ((∀ i, i < cfg.max_steps → conclusionAt env i ≠ "STOP") →
      (agentRun cfg available env).1.steps_taken = cfg.max_steps + 1 ∧
        (agentRun cfg available env).1.memory.length = cfg.max_steps) ∧
    (cfg.max_steps = 0 →
      (agentRun cfg available env).1.steps_taken = 1 ∧
        (agentRun cfg available env).1.memory.length = 0) := by
  refine ⟨?_, ?_, ?_⟩
  · intro k hk hcont hstop
    have h := loopFrom_stop available env k cfg.max_steps 0 []
      (Nat.zero_le k) (by omega) (fun i _ hik => hcont i hik) hstop
    simp [agentRun, runLoop, h, entriesFrom_length]
  · intro h
    have hn := loopFrom_nostop available env cfg.max_steps 0 []
      (fun i _ hi => h i (by omega))
    simp [agentRun, runLoop, hn, entriesFrom_length]
  · intro h0
    simp [agentRun, runLoop, h0, loopFrom]

/-- Witness for C10: with a step budget of 3 and a verifier that stops at
loop counter 1, the run reports `steps_taken = 2` and records 2 entries. -/
theorem run_steps_taken_accounting_witness :
    (agentRun cfgW [toolW] envStop1).1.steps_taken = 2 ∧
      (agentRun cfgW [toolW] envStop1).1.memory.length = 2 :=
  (run_steps_taken_accounting cfgW [toolW] envStop1).1 1 (by decide) (by decide) (by decide)

/-- C8: `Planner.generate_final_output` is invoked exactly once per run, on
every exit path; the run result carries the final answer computed from the
accumulated trace, and a zero-iteration run finalizes on the empty Memory
without error. -/
theorem run_finalize_exactly_once (cfg : AgentConfig) (available : List String)
    (env : Env) :
    (agentRun cfg available env).2.finalize_calls = 1 ∧
    (agentRun cfg available env).1.final_output =
      env.final_output (agentRun cfg available env).1.memory ∧
    (∀ k, k < cfg.max_steps →
      (∀ i, i < k → conclusionAt env i ≠ "STOP") →
      conclusionAt env k = "STOP" →
      (agentRun cfg available env).1.final_output =
        env.final_output (entriesFrom available env 0 (k + 1))) ∧
    (cfg.max_steps = 0 →
      (agentRun cfg available env).1.memory = [] ∧
      (agentRun cfg available env).1.final_output = env.final_output []) := by
  refine ⟨rfl, rfl, ?_, ?_⟩
  · intro k hk hcont hstop
    have h := loopFrom_stop available env k cfg.max_steps 0 []
      (Nat.zero_le k) (by omega) (fun i _ hik => hcont i hik) hstop
    simp [agentRun, runLoop, h]
  · intro h0
    simp [agentRun, runLoop, h0, loopFrom]

/-- Witness for C8: a zero-step-budget run finalizes once, on the empty
Memory. -/
theorem run_finalize_exactly_once_witness :
    (agentRun cfgZ [toolW] envStop1).1.memory = [] ∧
      (agentRun cfgZ [toolW] envStop1).1.final_output = envStop1.final_output [] :=
  (run_finalize_exactly_once cfgZ [toolW] envStop1).2.2.2 rfl

/-- A configuration with `max_steps = 1` and a zero time budget. -/
def cfgT0 : AgentConfig := ⟨1, 0, [toolW], "gpt-4.1-mini"⟩

/-- C2 counterexample: with time budget 0 but step budget 1, the loop still
performs an iteration (one `execute_step` call), contradicting the claim
that a `maxTime = 0` run performs zero iterations: the source loop guard is
`step_count < max_steps` alone and consults no clock. -/
theorem run_time_guard_counterexample :
    cfgT0.max_time = 0 ∧
    (agentRun cfgT0 [toolW] envContinue).2.exec_calls = 1 ∧
    (agentRun cfgT0 [toolW] envContinue).2.exec_calls ≠ 0 :=
  ⟨rfl, by decide, by decide⟩

/-- C2 (amended): the loop guard is `stepIndex < maxSteps` only.  The run is
invariant under every time budget (the body reads no clock and no
`max_time`), `FINALIZE` still runs exactly once whatever the budgets, and a
run with `maxTime = 0`, a positive step budget and a never-`STOP` verifier
performs exactly `maxSteps` iterations instead of zero. -/
theorem run_time_guard_amended (cfg : AgentConfig) (available : List String)
    (env : Env) :
    (∀ t, agentRun { cfg with max_time := t } available env = agentRun cfg available env) ∧
    (cfg.max_time = 0 → (agentRun cfg available env).2.finalize_calls = 1) ∧
    (cfg.max_time = 0 → 1 ≤ cfg.max_steps →
      (∀ i, i < cfg.max_steps → conclusionAt env i ≠ "STOP") →
      (agentRun cfg available env).2.exec_calls = cfg.max_steps) := by
  refine ⟨fun _ => rfl, fun _ => rfl, fun _ _ h => ?_⟩
  have hn := loopFrom_nostop available env cfg.max_steps 0 []
    (fun i _ hi => h i (by omega))
  simp [agentRun, runLoop, hn]

/-- Witness for the amended C2: the zero-time-budget, one-step-budget run
executes exactly one step. -/
theorem run_time_guard_amended_witness :
    (agentRun cfgT0 [toolW] envContinue).2.exec_calls = cfgT0.max_steps :=
  (run_time_guard_amended cfgT0 [toolW] envContinue).2.2 rfl (by decide) (by decide)

/-- A run environment whose planner selects the unknown tool `NoSuchTool`
and whose verifier stops immediately. -/
def envBadTool : Env :=
  { envStop1 with
    next_step := fun _ =>
      .dictVal [("context", "ctx"), ("sub_goal", "goal"), ("tool_name", "NoSuchTool")]
    verify_str := fun _ => "Conclusion: STOP" }

/-- A configuration with a step budget of 1. -/
def cfgOne : AgentConfig := ⟨1, 300, [toolW], "gpt-4.1-mini"⟩

/-- C1 counterexample: an iteration whose decision names a tool outside the
registry's available set still appends an entry, so the Memory length after
the iteration is one more than before it, not equal to it:
`IntentusAgent.run` calls `memory.add_action` unconditionally after every
`execute_step`. -/
theorem invalid_tool_memory_counterexample :
    extractedTool envBadTool 0 = "NoSuchTool" ∧
    "NoSuchTool" ∉ [toolW] ∧
    (agentRun cfgOne [toolW] envBadTool).1.memory.length = 1 ∧
    (agentRun cfgOne [toolW] envBadTool).1.memory.length ≠ 0 :=
  ⟨by decide, by decide, by decide, by decide⟩

/-- C1 (amended): an iteration whose decision names a tool that is not in
the available set does not dispatch — the Executor rejects it without an
oracle call, returning the failure record
`{"success": False, "error": "Tool ... is not available", "result": None}` —
but the iteration still appends exactly one entry to Memory (the length
grows by the number of iterations, each iteration contributing one entry,
and at least one iteration runs whenever fuel remains). -/
theorem invalid_tool_memory_amended (available : List String) (env : Env)
    (s fuel : Nat) (m : List MemEntry)
    (h : extractedTool env s ∉ available) :
    (stepEntry available env s).result =
      ⟨false, none,
        some ("Tool \x27" ++ extractedTool env s ++ "\x27 is not available"), none⟩ ∧
    (loopFrom available env (fuel + 1) s m).memory.length =
      m.length + (loopFrom available env (fuel + 1) s m).exec_calls ∧
    1 ≤ (loopFrom available env (fuel + 1) s m).exec_calls := by
  refine ⟨execute_step_not_available available (extractedTool env s)
      (env.cmd_resp s) (env.tool_run s) h, ?_, ?_⟩
  · obtain ⟨tail, hm, hl⟩ := loopFrom_memory_decomp available env (fuel + 1) s m
    simp [hm, hl]
  · simp only [loopFrom]
    by_cases hstop : conclusionAt env s = "STOP"
    · rw [if_pos hstop]
    · rw [if_neg hstop]
      simp [addIterCalls]

/-- Witness for the amended C1: the `NoSuchTool` iteration yields the
not-available failure record and one recorded entry. -/
theorem invalid_tool_memory_amended_witness :
    (stepEntry [toolW] envBadTool 0).result =
      ⟨false, none,
        some ("Tool \x27" ++ extractedTool envBadTool 0 ++ "\x27 is not available"), none⟩ ∧
    (loopFrom [toolW] envBadTool 1 0 []).memory.length =
      ([] : List MemEntry).length + (loopFrom [toolW] envBadTool 1 0 []).exec_calls ∧
    1 ≤ (loopFrom [toolW] envBadTool 1 0 []).exec_calls :=
  invalid_tool_memory_amended [toolW] envBadTool 0 0 [] (by decide)

/-- The stringified form of a structured verification response that carries
an unambiguous `STOP` in its `stop_signal` field. -/
def dictVerifyStr : String := pyDictRepr [("analysis", "done"), ("stop_signal", "STOP")]

/-- C7 counterexample: `Planner.extract_conclusion` is not the three-tier
extraction of `nextStep` — it only scans the stringified response for the
line prefixes `Analysis:`/`Conclusion:`.  On a structured response whose
`stop_signal` field is unambiguously `STOP`, direct field access would
return `STOP`, but the code returns `("", "")`; and the token-free default
is the empty string, not `CONTINUE`. -/
theorem verify_extraction_counterexample :
    extract_conclusion dictVerifyStr = ("", "") ∧
    pyDictGet [("analysis", "done"), ("stop_signal", "STOP")] "stop_signal" = "STOP" ∧
    extract_conclusion dictVerifyStr ≠ ("", "CONTINUE") ∧
    extract_conclusion "no token here" = ("", "") :=
  ⟨by decide, by decide, by decide, by decide⟩

/-- C7 (amended): verification extraction is single-tier — a line-prefix
scan of `str(response)` for `Analysis:`/`Conclusion:` with no field access
and no JSON decode — and when no `Conclusion:`-prefixed line is present the
conclusion is the empty string, which is not the exact token `STOP`, so the
loop proceeds to the next iteration rather than stopping. -/
theorem verify_extraction_amended (available : List String) (env : Env)
    (i fuel : Nat) (m : List MemEntry)
    (h : ∀ l ∈ pySplitLines (env.verify_str i), pyStartsWith l "Conclusion:" = false) :
    conclusionAt env i = "" ∧
    loopFrom available env (fuel + 1) i m =
      addIterCalls (loopFrom available env fuel (i + 1) (m ++ [stepEntry available env i])) := by
  have hc : conclusionAt env i = "" :=
    foldl_conclusionScanLine_snd (pySplitLines (env.verify_str i)) ("", "") h
  refine ⟨hc, ?_⟩
  simp only [loopFrom]
  rw [if_neg (by rw [hc]; decide)]

/-- Witness for the amended C7: a verifier answering with a structured dict
(stringified to `{'analysis': ..., 'stop_signal': 'STOP'}`) yields the empty
conclusion and the loop continues. -/
theorem verify_extraction_amended_witness :
    conclusionAt { envStop1 with verify_str := fun _ => dictVerifyStr } 0 = "" ∧
    loopFrom [toolW] { envStop1 with verify_str := fun _ => dictVerifyStr } 1 0 [] =
      addIterCalls (loopFrom [toolW] { envStop1 with verify_str := fun _ => dictVerifyStr } 0 1
        ([] ++ [stepEntry [toolW] { envStop1 with verify_str := fun _ => dictVerifyStr } 0])) :=
  verify_extraction_amended [toolW] { envStop1 with verify_str := fun _ => dictVerifyStr }
    0 0 [] (by decide)

/-- C5: whenever command generation fails or the selected (available)
tool's dispatch raises, `Executor.execute_step` propagates no exception: it
returns a record with `success = False` and a non-empty error (tool
exceptions are wrapped with the non-empty prefix
`Error executing tool command: `; the Executor's own command-generation
errors are the fixed non-empty messages, and an oracle transport exception
is assumed to stringify to something non-empty).  The resulting Step is
still recorded in Memory and the iteration still reaches its VERIFY call. -/
theorem tool_exception_wrapped (available : List String) (env : Env)
    (s fuel : Nat) (m : List MemEntry)
    (h1 : extractedTool env s ∈ available)
    (htr : ∀ e, env.cmd_resp s = .error e → e ≠ "")
    (hfail : (∃ e, generate_tool_command (env.cmd_resp s) = .error e) ∨
      (∃ c e, generate_tool_command (env.cmd_resp s) = .ok c ∧
        env.tool_run s (extractedTool env s) c = .error e)) :
    ∃ err, (stepEntry available env s).result = ⟨false, none, some err, none⟩ ∧
      err ≠ "" ∧
      (∃ rest, (loopFrom available env (fuel + 1) s m).memory =
        m ++ stepEntry available env s :: rest) ∧
      1 ≤ (loopFrom available env (fuel + 1) s m).verify_calls := by
  have hmem : ∃ rest, (loopFrom available env (fuel + 1) s m).memory =
      m ++ stepEntry available env s :: rest := by
    simp only [loopFrom]
    by_cases hstop : conclusionAt env s = "STOP"
    · rw [if_pos hstop]
      exact ⟨[], rfl⟩
    · rw [if_neg hstop]
      obtain ⟨tail, ht, _⟩ :=
        loopFrom_memory_decomp available env fuel (s + 1) (m ++ [stepEntry available env s])
      exact ⟨tail, by simp [addIterCalls, ht]⟩
  have hver : 1 ≤ (loopFrom available env (fuel + 1) s m).verify_calls := by
    simp only [loopFrom]
    by_cases hstop : conclusionAt env s = "STOP"
    · rw [if_pos hstop]
    · rw [if_neg hstop]
      simp [addIterCalls]
  rcases hfail with ⟨e, he⟩ | ⟨c, e, hc, he⟩
  · exact ⟨e,
      execute_step_cmd_error available (extractedTool env s) (env.cmd_resp s)
        (env.tool_run s) e h1 he,
      generate_tool_command_error_ne_empty (env.cmd_resp s) htr e he, hmem, hver⟩
  · exact ⟨"Error executing tool command: " ++ e,
      execute_step_tool_error available (extractedTool env s) (env.cmd_resp s)
        (env.tool_run s) c e h1 hc he,
      string_append_ne_empty _ _ (by decide), hmem, hver⟩

/-- A run environment whose tool dispatch raises (`str(e) = "boom"`). -/
def envToolRaises : Env :=
  { envStop1 with
    tool_run := fun _ _ _ => .error "boom"
    verify_str := fun _ => "Conclusion: CONTINUE" }

/-- Witness for C5: with the tool raising `boom` on a valid command, the
recorded Step carries a non-empty wrapped error and the iteration reaches
VERIFY. -/
theorem tool_exception_wrapped_witness :
    ∃ err, (stepEntry [toolW] envToolRaises 0).result = ⟨false, none, some err, none⟩ ∧
      err ≠ "" ∧
      (∃ rest, (loopFrom [toolW] envToolRaises 1 0 []).memory =
        [] ++ stepEntry [toolW] envToolRaises 0 :: rest) ∧
      1 ≤ (loopFrom [toolW] envToolRaises 1 0 []).verify_calls :=
  tool_exception_wrapped [toolW] envToolRaises 0 0 [] (by decide)
    (fun _ h => Except.noConfusion h)
    (Or.inr ⟨"Paris", "boom", rfl, rfl⟩)

/-- C9: when `Executor.execute_step` reaches dispatch and neither command
generation nor the tool invocation raises, the returned record has
`success = True` and nests the tool's whole payload under `result`, with no
step-level error — even when that payload itself reports `success = False`,
as `Wikipedia_Knowledge_Searcher_Tool.execute` does for an empty search
result (returning a failure payload instead of raising). -/
theorem step_success_ignores_payload (available : List String) (tool : String)
    (cmdResp : Except String OracleValue)
    (toolRun : String → String → Except String ToolPayload) (c : String)
    (payload : ToolPayload) (msg : String)
    (h1 : tool ∈ available) (h2 : generate_tool_command cmdResp = .ok c)
    (h3 : toolRun tool c = .ok payload) :
    (execute_step available tool cmdResp toolRun).success = true ∧
    (execute_step available tool cmdResp toolRun).result = some payload ∧
    (execute_step available tool cmdResp toolRun).error = none ∧
    wikipedia_execute (.ok ([], msg)) = ⟨false, some msg, none⟩ := by
  rw [execute_step_ok available tool cmdResp toolRun c payload h1 h2 h3]
  exact ⟨rfl, rfl, rfl, rfl⟩

/-- Witness for C9: a Wikipedia search with no results yields a payload with
`success = False`, yet the step record reports `success = True` with the
failure nested in `result`. -/
theorem step_success_ignores_payload_witness :
    (execute_step [toolW] toolW (.ok (.dictVal [("analysis", "a"), ("command", "Xyz")]))
      (fun _ _ => .ok (wikipedia_execute (.ok ([], "PageError"))))).success = true ∧
    (execute_step [toolW] toolW (.ok (.dictVal [("analysis", "a"), ("command", "Xyz")]))
      (fun _ _ => .ok (wikipedia_execute (.ok ([], "PageError"))))).result =
        some (wikipedia_execute (.ok ([], "PageError"))) ∧
    (execute_step [toolW] toolW (.ok (.dictVal [("analysis", "a"), ("command", "Xyz")]))
      (fun _ _ => .ok (wikipedia_execute (.ok ([], "PageError"))))).error = none ∧
    wikipedia_execute (.ok ([], "PageError")) = ⟨false, some "PageError", none⟩ :=
  step_success_ignores_payload [toolW] toolW
    (.ok (.dictVal [("analysis", "a"), ("command", "Xyz")]))
    (fun _ _ => .ok (wikipedia_execute (.ok ([], "PageError")))) "Xyz"
    (wikipedia_execute (.ok ([], "PageError"))) "PageError"
    (by decide) rfl rfl

/-- A tool environment with one valid candidate and one deliberately broken
candidate (its import/instantiation in `load_tools_and_get_metadata`
raises). -/
def envTwoTools : ToolsEnv :=
  { candidates := [⟨"Good_Tool", "meta", true⟩, ⟨"Broken_Tool", "", false⟩]
    inst_ok := fun n => n == "Good_Tool" }

/-- C3 counterexample: with the wildcard sentinel `["all"]` and a candidate
set containing one perfectly valid tool, the directory scan does return that
tool's metadata, yet the built available set is empty — `_set_up_tools`
discards the return value of `load_tools_and_get_metadata`, so
`run_demo_commands` filters the still-empty `self.toolbox_metadata` — hence
the successfully-instantiated candidate is not in the available set, contra
the claim. -/
theorem registry_build_counterexample :
    load_tools_and_get_metadata envTwoTools = [("Good_Tool", "meta")] ∧
    envTwoTools.inst_ok "Good_Tool" = true ∧
    (initializer_init ["all"] envTwoTools).available_tools = [] ∧
    "Good_Tool" ∉ (initializer_init ["all"] envTwoTools).available_tools :=
  ⟨by decide, by decide, by decide, by decide⟩

/-- C3 (amended): per-candidate failures in the scan are indeed tolerated —
`load_tools_and_get_metadata` skips a failing candidate and still returns
every candidate that loads — but its returned metadata is discarded by
`_set_up_tools`, the wildcard flag `load_all` is never consulted, and the
enabled-names seed of `available_tools` is overwritten by
`run_demo_commands`, so for every enabled-names list and every candidate set
the built registry has an empty available set and empty metadata. -/
theorem registry_build_amended (enabled : List String) (env : ToolsEnv)
    (hnodup : (env.candidates.map (fun c => c.name)).Nodup) :
    (initializer_init enabled env).available_tools = [] ∧
    (initializer_init enabled env).toolbox_metadata = [] ∧
    (∀ c ∈ env.candidates, c.load_ok = true →
      (c.name, c.metadata) ∈ load_tools_and_get_metadata env) ∧
    (∀ c ∈ env.candidates, c.load_ok = false →
      ∀ md, (c.name, md) ∉ load_tools_and_get_metadata env) := by
  refine ⟨rfl, rfl, ?_, ?_⟩
  · intro c hc hok
    simp only [load_tools_and_get_metadata, List.mem_map]
    exact ⟨c, List.mem_filter.mpr ⟨hc, by simp [hok]⟩, rfl⟩
  · intro c hc hbad md hmem
    simp only [load_tools_and_get_metadata, List.mem_map] at hmem
    obtain ⟨c2, hc2, heq⟩ := hmem
    have hc2mem : c2 ∈ env.candidates := (List.mem_filter.mp hc2).1
    have hc2ok : c2.load_ok = true := by
      simpa using (List.mem_filter.mp hc2).2
    have hname : c2.name = c.name := congrArg Prod.fst heq
    have : c2 = c := List.inj_on_of_nodup_map hnodup hc2mem hc hname
    rw [this, hbad] at hc2ok
    exact Bool.noConfusion hc2ok

/-- Witness for the amended C3: on `envTwoTools` with the wildcard, the scan
keeps `Good_Tool` and drops `Broken_Tool`, yet the registry ends empty. -/
theorem registry_build_amended_witness :
    (initializer_init ["all"] envTwoTools).available_tools = [] ∧
    (initializer_init ["all"] envTwoTools).toolbox_metadata = [] ∧
    (∀ c ∈ envTwoTools.candidates, c.load_ok = true →
      (c.name, c.metadata) ∈ load_tools_and_get_metadata envTwoTools) ∧
    (∀ c ∈ envTwoTools.candidates, c.load_ok = false →
      ∀ md, (c.name, md) ∉ load_tools_and_get_metadata envTwoTools) :=
  registry_build_amended ["all"] envTwoTools (by decide)

/-- The configuration the HTTP front-end (`main.py`) builds: a supported
engine name and one enabled tool. -/
def cfgMain : AgentConfig := ⟨5, 300, ["Wikipedia_Knowledge_Searcher_Tool"], "gpt-4.1-mini"⟩

/-- C6 counterexample: with a supported engine name, one valid candidate and
only one broken candidate, construction still aborts — with the `TypeError`
raised inside `create_llm_engine` (it passes `llm_engine=` to `CoreConfig`,
which has no such field), not with any registry-emptiness error — so
per-candidate instantiation failures alone do not leave construction
succeeding, contra the claim. -/
theorem agent_init_counterexample :
    cfgMain.llm_engine = "gpt-4.1-mini" ∧
    (⟨"Good_Tool", "meta", true⟩ : Candidate) ∈ envTwoTools.candidates ∧
    (⟨"Broken_Tool", "", false⟩ : Candidate) ∈ envTwoTools.candidates ∧
    IntentusAgent_init cfgMain envTwoTools =
      .error "TypeError: unexpected keyword argument llm_engine" :=
  ⟨rfl, by decide, by decide, rfl⟩

/-- C6 (amended): agent construction never reaches a registry-emptiness
check because no such check exists anywhere: construction aborts
unconditionally, for every configuration and tool environment, with the
`TypeError` from `create_llm_engine` (raised before the `Initializer` is
even built), and the `Initializer`'s tool setup itself never raises — it
always ends with an empty available set. -/
theorem agent_init_amended (cfg : AgentConfig) (env : ToolsEnv) :
    IntentusAgent_init cfg env =
      .error "TypeError: unexpected keyword argument llm_engine" ∧
    (initializer_init cfg.enabled_tools env).available_tools = [] :=
  ⟨rfl, rfl⟩
